import Mathlib

/-!
Shallow embedding of `src/daily_signal_generator.py` (TAA-Bot — 5-Asset MA
Strategy).  Prices are modelled as lists of rationals (one list per asset
column, post forward-fill); pandas `rolling(w).mean()` is modelled by
`rollingMean`, which is `none` (the NaN sentinel) while fewer than `w`
observations are available.  A pandas comparison against NaN is `False`,
which `sig` reflects by returning `0` when the rolling mean is undefined.
-/

namespace TAA

/-- The five configured tickers (`ASSETS` in the source). -/
def ASSETS : List String :=
  ["102110.KS", "283580.KS", "453810.KS", "148070.KS", "385560.KS"]

/-- `BASE_WEIGHTS`: each ticker gets 0.20. -/
def baseWeight : ℚ := 1 / 5

/-- `MA_WINDOWS = [20, 120, 200]`. -/
def MA_WINDOWS : List ℕ := [20, 120, 200]

/-- `SCALAR_MAP = {3: 1.0, 2: 0.75, 1: 0.50, 0: 0.0}` as a partial lookup:
`none` models a key absent from the Python dict. -/
def SCALAR_MAP : ℕ → Option ℚ := fun s =>
  if s = 3 then some 1
  else if s = 2 then some (3 / 4)
  else if s = 1 then some (1 / 2)
  else if s = 0 then some 0
  else none

/-- Line 62 of the source: `SCALAR_MAP.get(x, 0.0)` — lookup with silent
default `0.0` for keys outside the dict. -/
def scalarOf (s : ℕ) : ℚ := (SCALAR_MAP s).getD 0

/-- `prices.rolling(window=w).mean()` at row `t`: the arithmetic mean of
`prices[t-w+1 .. t]`, defined only when at least `w` observations exist
(and `t` is a real row); `none` is the NaN sentinel. -/
def rollingMean (prices : List ℚ) (w t : ℕ) : Option ℚ :=
  if w ≤ t + 1 ∧ t < prices.length ∧ 0 < w then
    some (((prices.drop (t + 1 - w)).take w).sum / w)
  else none

/-- Lines 55–57: `(all_prices_df > all_prices_df.rolling(window=w).mean()).astype(int)`
at row `t`.  A comparison against NaN is `False` in pandas, hence `0` when the
rolling mean is undefined. -/
def sig (prices : List ℚ) (w t : ℕ) : ℕ :=
  match rollingMean prices w t with
  | none => 0
  | some m => if prices.getD t 0 > m then 1 else 0

/-- Line 59: `total_scores = sig_20 + sig_120 + sig_200` at row `t`. -/
def totalScore (prices : List ℚ) (t : ℕ) : ℕ :=
  sig prices 20 t + sig prices 120 t + sig prices 200 t

/-- Lines 190–195 of the source: the reported disparity for one window.
`disparity = 0.0` when the rolling mean is NaN, else `price / ma - 1`.
(The Python code performs the division for any non-NaN `ma`, including
zero or negative values.) -/
def disparity (prices : List ℚ) (w t : ℕ) : ℚ :=
  match rollingMean prices w t with
  | none => 0
  | some m => prices.getD t 0 / m - 1

/-- The output record assembled by `get_daily_signals_and_report`
(weights, cash and the rebalance flag; lines 64–77). -/
structure Snapshot where
  todayScalars : List ℚ
  yesterdayScalars : List ℚ
  todayWeights : List ℚ
  yesterdayWeights : List ℚ
  todayCash : ℚ
  yesterdayCash : ℚ
  rebalanceNeeded : Bool
deriving Repr, DecidableEq

/-- The numeric core of `get_daily_signals_and_report` (lines 46–77) on a
table of aligned price columns (one per asset).  The Python function fails
(raises) exactly when the downloaded frame is empty or has a single row
(`iloc[-2]`); otherwise it computes today's and yesterday's scalars from
`total_scores`, the weights via `BASE_WEIGHTS`, cash as `1 - sum(weights)`,
and the rebalance flag as `not today_scalars.equals(yesterday_scalars)`.
No history-length check beyond that is performed. -/
def getDailySignals (table : List (List ℚ)) : Option Snapshot :=
  let n := (table.headD []).length
  if table.length = 5 ∧ table.all (fun col => col.length = n) ∧ 2 ≤ n then
    let tScal := table.map (fun col => scalarOf (totalScore col (n - 1)))
    let yScal := table.map (fun col => scalarOf (totalScore col (n - 2)))
    let tW := tScal.map (· * baseWeight)
    let yW := yScal.map (· * baseWeight)
    some { todayScalars := tScal
           yesterdayScalars := yScal
           todayWeights := tW
           yesterdayWeights := yW
           todayCash := 1 - tW.sum
           yesterdayCash := 1 - yW.sum
           rebalanceNeeded := tScal ≠ yScal }
  else none

/-- The spec's hysteresis transition rule with band width `b`, read as a
property of the code's per-window signal: when the rolling mean is defined,
a window that was ON stays ON iff `price ≥ ma*(1-b)` and a window that was
OFF turns ON iff `price > ma*(1+b)`. -/
def FollowsHysteresis (b : ℚ) : Prop :=
  ∀ (prices : List ℚ) (w t : ℕ) (m : ℚ),
    rollingMean prices w t = some m →
    ((sig prices w (t - 1) = 1 →
        (sig prices w t = 1 ↔ prices.getD t 0 ≥ m * (1 - b))) ∧
     (sig prices w (t - 1) = 0 →
        (sig prices w t = 1 ↔ prices.getD t 0 > m * (1 + b))))

/-- Counterexample series for the hysteresis claim: nineteen days at 1,
a breakout day at 2 (20-day signal ON), then a day landing exactly on the
20-day moving average. -/
def psHyst : List ℚ := List.replicate 19 1 ++ [2, 20 / 19]

/-- Counterexample series for the degenerate-MA claim: twenty days at −2
followed by a day at −1, so the 20-day moving average is negative while the
price sits strictly above it. -/
def psNeg : List ℚ := List.replicate 19 (-2) ++ [-1]

/-- A concrete 5-column table, two rows per column, for witnesses. -/
def tableSmall : List (List ℚ) := List.replicate 5 [1, 2]

/-- The snapshot the core produces on `tableSmall`: all windows are in
warm-up, so every score is 0, every scalar and weight 0, all capital in
cash, and no rebalance. -/
def snapSmall : Snapshot :=
  { todayScalars := [0, 0, 0, 0, 0]
    yesterdayScalars := [0, 0, 0, 0, 0]
    todayWeights := [0, 0, 0, 0, 0]
    yesterdayWeights := [0, 0, 0, 0, 0]
    todayCash := 1
    yesterdayCash := 1
    rebalanceNeeded := false }

lemma sig_eq_one_iff (prices : List ℚ) (w t : ℕ) (m : ℚ)
    (hma : rollingMean prices w t = some m) :
    (sig prices w t = 1 ↔ prices.getD t 0 > m) := by
  simp only [sig, hma]
  split_ifs with h
  · exact iff_of_true rfl h
  · exact iff_of_false (by norm_num) h

lemma scalarOf_bounds (s : ℕ) : 0 ≤ scalarOf s ∧ scalarOf s ≤ 1 := by
  unfold scalarOf SCALAR_MAP
  split_ifs <;> norm_num

lemma sum_bounds_of_mem (l : List ℚ) (c : ℚ)
    (h : ∀ x ∈ l, 0 ≤ x ∧ x ≤ c) :
    0 ≤ l.sum ∧ l.sum ≤ l.length * c := by
  induction l with
  | nil => simp
  | cons a l ih =>
    obtain ⟨ha0, hac⟩ := h a (List.mem_cons_self a l)
    obtain ⟨hs0, hsc⟩ := ih (fun x hx => h x (List.mem_cons_of_mem a hx))
    refine ⟨by simpa using add_nonneg ha0 hs0, ?_⟩
    simp only [List.sum_cons, List.length_cons]
    push_cast
    nlinarith

lemma map_ne_map_iff (f g : List ℚ → ℚ) (l : List (List ℚ)) :
    l.map f ≠ l.map g ↔ ∃ x ∈ l, f x ≠ g x := by
  rw [ne_eq, List.map_eq_map_iff]
  push_neg
  rfl

lemma snapSmall_eq : getDailySignals tableSmall = some snapSmall := by
  norm_num [getDailySignals, tableSmall, snapSmall, totalScore, sig,
    rollingMean, scalarOf, SCALAR_MAP, baseWeight, List.replicate]

/-- C6: for a date `t` with fewer than `w` observations the rolling mean is
undefined (the NaN sentinel) and the window's signal is OFF (0), hence it
contributes 0 to the day's score; no error occurs, `sig` is total. -/
theorem warmup_state_off (prices : List ℚ) (w t : ℕ) (h : t + 1 < w) :
    rollingMean prices w t = none ∧ sig prices w t = 0 := by
  have hnone : rollingMean prices w t = none := by
    unfold rollingMean
    rw [if_neg]
    rintro ⟨h1, -, -⟩
    omega
  exact ⟨hnone, by simp [sig, hnone]⟩

theorem warmup_state_off_witness :
    (0 : ℕ) + 1 < 20 ∧
    (rollingMean [1, 2, 3] 20 0 = none ∧ sig [1, 2, 3] 20 0 = 0) :=
  ⟨by norm_num, warmup_state_off [1, 2, 3] 20 0 (by norm_num)⟩

/-- C8: the score→scalar lookup table `SCALAR_MAP` is monotone
non-decreasing on its domain: if both scores are mapped and `s1 ≤ s2`, the
scalar for `s1` is at most the scalar for `s2`. -/
theorem scalar_map_monotone (s1 s2 : ℕ) (q1 q2 : ℚ) (h : s1 ≤ s2)
    (h1 : SCALAR_MAP s1 = some q1) (h2 : SCALAR_MAP s2 = some q2) :
    q1 ≤ q2 := by
  have hb1 : s1 ≤ 3 := by
    by_contra hc
    have e0 : ¬s1 = 0 := by omega
    have e1 : ¬s1 = 1 := by omega
    have e2 : ¬s1 = 2 := by omega
    have e3 : ¬s1 = 3 := by omega
    simp [SCALAR_MAP, e0, e1, e2, e3] at h1
  have hb2 : s2 ≤ 3 := by
    by_contra hc
    have e0 : ¬s2 = 0 := by omega
    have e1 : ¬s2 = 1 := by omega
    have e2 : ¬s2 = 2 := by omega
    have e3 : ¬s2 = 3 := by omega
    simp [SCALAR_MAP, e0, e1, e2, e3] at h2
  interval_cases s1 <;> interval_cases s2 <;>
    simp_all [SCALAR_MAP] <;> linarith

theorem scalar_map_monotone_witness : ((1 : ℚ) / 2 ≤ 3 / 4) :=
  scalar_map_monotone 1 2 (1 / 2) (3 / 4) (by norm_num)
    (by norm_num [SCALAR_MAP]) (by norm_num [SCALAR_MAP])

/-- C3 counterexample: the score→scalar mapping in the code is
`SCALAR_MAP.get(x, 0.0)`: the score 4 lies outside the table's domain
(`SCALAR_MAP 4 = none`), yet no error is surfaced — the mapping silently
returns the default scalar 0.0. -/
theorem unmapped_score_defaults_silently :
    SCALAR_MAP 4 = none ∧ scalarOf 4 = 0 := by
  norm_num [SCALAR_MAP, scalarOf]

/-- C3 (amended): a score outside the mapping's domain {0,1,2,3} is not an
error: `SCALAR_MAP` has no entry for it and the code's lookup
`SCALAR_MAP.get(x, 0.0)` silently substitutes the default scalar 0.0. -/
theorem unmapped_score_maps_to_zero (s : ℕ) (h : 3 < s) :
    SCALAR_MAP s = none ∧ scalarOf s = 0 := by
  have e0 : ¬s = 0 := by omega
  have e1 : ¬s = 1 := by omega
  have e2 : ¬s = 2 := by omega
  have e3 : ¬s = 3 := by omega
  simp [SCALAR_MAP, scalarOf, e0, e1, e2, e3]

theorem unmapped_score_maps_to_zero_witness :
    (3 : ℕ) < 7 ∧ (SCALAR_MAP 7 = none ∧ scalarOf 7 = 0) :=
  ⟨by norm_num, unmapped_score_maps_to_zero 7 (by norm_num)⟩

/-- C9: the per-window signal is memoryless. When the `w`-day rolling mean
at `t` is defined, the signal is ON (1) exactly when the day's price is
strictly above that mean, and the signal is a function of the day's rolling
mean and price alone: any series and date with the same rolling mean and
price yield the same signal, independent of any earlier day's state. -/
theorem signal_memoryless (prices : List ℚ) (w t : ℕ) (m : ℚ)
    (hma : rollingMean prices w t = some m) :
    (sig prices w t = 1 ↔ prices.getD t 0 > m) ∧
    (∀ (prices2 : List ℚ) (t2 : ℕ),
      rollingMean prices2 w t2 = rollingMean prices w t →
      prices2.getD t2 0 = prices.getD t 0 →
      sig prices2 w t2 = sig prices w t) := by
  refine ⟨sig_eq_one_iff prices w t m hma, ?_⟩
  intro prices2 t2 hm hp
  simp only [sig, hm, hp]

lemma mapped_weights_bounds (table : List (List ℚ)) (t : ℕ)
    (h5 : table.length = 5) :
    0 ≤ ((table.map (fun col => scalarOf (totalScore col t))).map
          (· * baseWeight)).sum ∧
    ((table.map (fun col => scalarOf (totalScore col t))).map
          (· * baseWeight)).sum ≤ 1 := by
  have hb : ∀ x ∈ (table.map (fun col => scalarOf (totalScore col t))).map
      (· * baseWeight), 0 ≤ x ∧ x ≤ baseWeight := by
    intro x hx
    simp only [List.mem_map] at hx
    obtain ⟨q, ⟨col, hcol, rfl⟩, rfl⟩ := hx
    obtain ⟨hq0, hq1⟩ := scalarOf_bounds (totalScore col t)
    have hbw : (0 : ℚ) < baseWeight := by norm_num [baseWeight]
    exact ⟨mul_nonneg hq0 hbw.le, by nlinarith⟩
  obtain ⟨h0, h1⟩ := sum_bounds_of_mem _ baseWeight hb
  refine ⟨h0, le_trans h1 ?_⟩
  simp only [List.length_map, h5]
  norm_num [baseWeight]

/-- C1 counterexample: no band width `b ≥ 0` makes the code's per-window
signal follow the spec's hysteresis rule.  On `psHyst` the 20-day signal is
ON at day 19 (price 2 above the mean 21/20); on day 20 the price 20/19
equals the moving average, hence lies at or above the lower band
`ma*(1-b)` for every `b ≥ 0`, so the hysteresis rule keeps the state ON —
but the code re-evaluates strict breakout `price > ma` from scratch and
turns the signal OFF. -/
theorem hysteresis_rule_refuted : ¬∃ b : ℚ, 0 ≤ b ∧ FollowsHysteresis b := by
  rintro ⟨b, hb, hF⟩
  have hma : rollingMean psHyst 20 20 = some (20 / 19) := by
    norm_num [rollingMean, psHyst, List.replicate]
  have hprior : sig psHyst 20 19 = 1 := by
    norm_num [sig, rollingMean, psHyst, List.replicate]
  have hp : psHyst.getD 20 0 = 20 / 19 := by
    norm_num [psHyst, List.replicate]
  have hnow : sig psHyst 20 20 = 0 := by
    norm_num [sig, rollingMean, psHyst, List.replicate]
  have hiff := (hF psHyst 20 20 (20 / 19) hma).1 hprior
  have hone : sig psHyst 20 20 = 1 := by
    rw [hiff, hp, ge_iff_le]
    nlinarith
  rw [hnow] at hone
  exact absurd hone (by norm_num)

/-- C1 (amended): the code carries no hysteresis state and no band.
Whenever the `w`-day moving average at `t` is defined, the day's signal is
ON (1) exactly when `price[t]` is strictly above the moving average — the
same condition whether the prior day's signal was ON or OFF. -/
theorem signal_ignores_prior_state (prices : List ℚ) (w t : ℕ) (m : ℚ)
    (hma : rollingMean prices w t = some m) :
    (sig prices w (t - 1) = 1 →
      (sig prices w t = 1 ↔ prices.getD t 0 > m)) ∧
    (sig prices w (t - 1) = 0 →
      (sig prices w t = 1 ↔ prices.getD t 0 > m)) :=
  ⟨fun _ => sig_eq_one_iff prices w t m hma,
   fun _ => sig_eq_one_iff prices w t m hma⟩

theorem signal_ignores_prior_state_witness :
    rollingMean psHyst 20 20 = some (20 / 19) ∧
    ((sig psHyst 20 19 = 1 →
       (sig psHyst 20 20 = 1 ↔ psHyst.getD 20 0 > 20 / 19)) ∧
     (sig psHyst 20 19 = 0 →
       (sig psHyst 20 20 = 1 ↔ psHyst.getD 20 0 > 20 / 19))) :=
  ⟨by norm_num [rollingMean, psHyst, List.replicate],
   signal_ignores_prior_state psHyst 20 20 (20 / 19)
     (by norm_num [rollingMean, psHyst, List.replicate])⟩

/-- C7 counterexample: on `psNeg` the 20-day moving average at day 19 is
−39/20, which is negative, yet the code does not report a disparity of 0
(it reports `price/ma − 1 = −19/39`) and does not force the state OFF (the
price −1 is strictly above the mean, so the signal is ON): only a NaN
moving average is special-cased, not a zero or negative one. -/
theorem degenerate_ma_not_guarded :
    rollingMean psNeg 20 19 = some (-(39 / 20)) ∧
    (-(39 / 20) : ℚ) < 0 ∧
    disparity psNeg 20 19 = -(19 / 39) ∧
    disparity psNeg 20 19 ≠ 0 ∧
    sig psNeg 20 19 = 1 := by
  norm_num [rollingMean, disparity, sig, psNeg, List.replicate]

/-- C7 (amended): the code special-cases only an undefined (NaN) moving
average, for which the disparity is reported as 0 and the signal is OFF.
For any defined nonzero moving average — including a negative one — the
reported disparity is `price/ma − 1` and the signal is ON exactly when the
price strictly exceeds the moving average; no OFF-forcing or zeroing
happens for zero-or-negative means.  (For `ma = 0` exactly, the Python
division produces an IEEE infinity rather than a crash.) -/
theorem disparity_follows_ma (prices : List ℚ) (w t : ℕ) (m : ℚ)
    (hma : rollingMean prices w t = some m) (_hm : m ≠ 0) :
    disparity prices w t = prices.getD t 0 / m - 1 ∧
    (sig prices w t = 1 ↔ prices.getD t 0 > m) :=
  ⟨by simp [disparity, hma], sig_eq_one_iff prices w t m hma⟩

theorem disparity_follows_ma_witness :
    rollingMean psNeg 20 19 = some (-(39 / 20)) ∧
    (-(39 / 20) : ℚ) ≠ 0 ∧
    (disparity psNeg 20 19 = psNeg.getD 19 0 / -(39 / 20) - 1 ∧
     (sig psNeg 20 19 = 1 ↔ psNeg.getD 19 0 > -(39 / 20))) :=
  ⟨by norm_num [rollingMean, psNeg, List.replicate], by norm_num,
   disparity_follows_ma psNeg 20 19 (-(39 / 20))
     (by norm_num [rollingMean, psNeg, List.replicate]) (by norm_num)⟩

/-- C2 counterexample: a 5-column price table of length 2 — far shorter
than the longest window of 200 — does not make the core signal an
error: `getDailySignals` returns a full snapshot (the undefined moving
averages just yield OFF signals, score 0 and full cash). -/
theorem short_history_still_computes :
    (tableSmall.headD []).length < 200 ∧
    getDailySignals tableSmall = some snapSmall := by
  exact ⟨by norm_num [tableSmall, List.replicate], snapSmall_eq⟩

/-- C2 (amended): the core performs no history-length check against the
longest window.  Any 5-column table of aligned columns with at least two
rows — in particular one shorter than 200 rows — produces a snapshot; the
code fails only on an empty download or a single-row table. -/
theorem no_insufficient_history_error (table : List (List ℚ))
    (h5 : table.length = 5)
    (hall : ∀ col ∈ table, col.length = (table.headD []).length)
    (h2 : 2 ≤ (table.headD []).length) :
    (getDailySignals table).isSome = true := by
  unfold getDailySignals
  dsimp only
  rw [if_pos]
  · rfl
  · refine ⟨h5, ?_, h2⟩
    rw [List.all_eq_true]
    intro col hc
    exact decide_eq_true (hall col hc)

theorem no_insufficient_history_error_witness :
    tableSmall.length = 5 ∧
    (∀ col ∈ tableSmall, col.length = (tableSmall.headD []).length) ∧
    2 ≤ (tableSmall.headD []).length ∧
    (getDailySignals tableSmall).isSome = true :=
  ⟨by norm_num [tableSmall], by norm_num [tableSmall, List.replicate],
   by norm_num [tableSmall, List.replicate],
   no_insufficient_history_error tableSmall (by norm_num [tableSmall])
     (by norm_num [tableSmall, List.replicate])
     (by norm_num [tableSmall, List.replicate])⟩

/-- C4: the rebalance flag produced by the core is true iff at least one
asset's allocation scalar differs between yesterday's and today's rows
(`not today_scalars.equals(yesterday_scalars)` in the source). -/
theorem rebalance_iff_scalar_change (table : List (List ℚ))
    (snap : Snapshot) (h : getDailySignals table = some snap) :
    (snap.rebalanceNeeded = true ↔
      ∃ col ∈ table,
        scalarOf (totalScore col ((table.headD []).length - 1)) ≠
        scalarOf (totalScore col ((table.headD []).length - 2))) := by
  unfold getDailySignals at h
  dsimp only at h
  split_ifs at h with hc
  injection h with h
  subst h
  simp only [decide_eq_true_eq]
  exact map_ne_map_iff _ _ table

theorem rebalance_iff_scalar_change_witness :
    (snapSmall.rebalanceNeeded = true ↔
      ∃ col ∈ tableSmall,
        scalarOf (totalScore col ((tableSmall.headD []).length - 1)) ≠
        scalarOf (totalScore col ((tableSmall.headD []).length - 2))) :=
  rebalance_iff_scalar_change tableSmall snapSmall snapSmall_eq

/-- C5: on every snapshot the core produces, the asset weights plus the
cash weight sum to exactly 1 (cash is defined as `1 - sum(weights)`), for
today and for yesterday; exact equality implies the 1e-9 tolerance. -/
theorem weights_plus_cash_one (table : List (List ℚ)) (snap : Snapshot)
    (h : getDailySignals table = some snap) :
    snap.todayWeights.sum + snap.todayCash = 1 ∧
    snap.yesterdayWeights.sum + snap.yesterdayCash = 1 := by
  unfold getDailySignals at h
  dsimp only at h
  split_ifs at h with hc
  injection h with h
  subst h
  constructor <;> simp

theorem weights_plus_cash_one_witness :
    snapSmall.todayWeights.sum + snapSmall.todayCash = 1 ∧
    snapSmall.yesterdayWeights.sum + snapSmall.yesterdayCash = 1 :=
  weights_plus_cash_one tableSmall snapSmall snapSmall_eq

/-- C10: on every snapshot the core produces, the cash weight lies in
[0, 1] (today and yesterday): each allocation scalar lies in [0, 1], each
base weight is 1/5, and the five base weights sum to 1, so the asset
weights sum to a value in [0, 1] and cash = 1 − that sum stays in [0, 1]. -/
theorem cash_weight_in_unit_interval (table : List (List ℚ))
    (snap : Snapshot) (h : getDailySignals table = some snap) :
    (0 ≤ snap.todayCash ∧ snap.todayCash ≤ 1) ∧
    (0 ≤ snap.yesterdayCash ∧ snap.yesterdayCash ≤ 1) := by
  unfold getDailySignals at h
  dsimp only at h
  split_ifs at h with hc
  injection h with h
  subst h
  obtain ⟨h5, -, -⟩ := hc
  obtain ⟨ht0, ht1⟩ :=
    mapped_weights_bounds table ((table.headD []).length - 1) h5
  obtain ⟨hy0, hy1⟩ :=
    mapped_weights_bounds table ((table.headD []).length - 2) h5
  refine ⟨⟨?_, ?_⟩, ⟨?_, ?_⟩⟩ <;> dsimp only <;> linarith

theorem cash_weight_in_unit_interval_witness :
    (0 ≤ snapSmall.todayCash ∧ snapSmall.todayCash ≤ 1) ∧
    (0 ≤ snapSmall.yesterdayCash ∧ snapSmall.yesterdayCash ≤ 1) :=
  cash_weight_in_unit_interval tableSmall snapSmall snapSmall_eq

theorem signal_memoryless_witness :
    rollingMean psHyst 20 19 = some (21 / 20) ∧
    ((sig psHyst 20 19 = 1 ↔ psHyst.getD 19 0 > 21 / 20) ∧
     (∀ (prices2 : List ℚ) (t2 : ℕ),
       rollingMean prices2 20 t2 = rollingMean psHyst 20 19 →
       prices2.getD t2 0 = psHyst.getD 19 0 →
       sig prices2 20 t2 = sig psHyst 20 19)) :=
  ⟨by norm_num [rollingMean, psHyst, List.replicate],
   signal_memoryless psHyst 20 19 (21 / 20)
     (by norm_num [rollingMean, psHyst, List.replicate])⟩

end TAA
